import Mathlib

/-!
Shallow embedding of the legged-loco skill-training core: the skill
registry (skills/base.py), the sequential curriculum orchestrator
(scripts/train_multiskill.py) and the skill library
(utils/skill_library.py).  Python dicts are modelled as association
lists preserving insertion order, external collaborators (Gymnasium,
the RSL-RL runner, the filesystem clock) as explicit parameters, and
the orchestrator's side effects as an event trace.
-/

/-- JSON-like values: the serializable payloads stored in skill metadata
and written to metadata.json. -/
inductive Json where
  | str (s : String)
  | num (n : Int)
  | null
  | arr (xs : List Json)
  | obj (kvs : List (String × Json))

/-- First value bound to a key in an association list; Python dict lookup. -/
def alookup {κ α : Type} [DecidableEq κ] : List (κ × α) → κ → Option α
  | [], _ => none
  | (k2, v) :: rest, k => if k2 = k then some v else alookup rest k

/-- Python `k in d` on a dict. -/
def acontains {κ α : Type} [DecidableEq κ] (d : List (κ × α)) (k : κ) : Bool :=
  (alookup d k).isSome

/-- Python dict assignment `d[k] = v`: replaces the value in place when the
key exists (keeping its position, as CPython dicts do), otherwise appends. -/
def aset {κ α : Type} [DecidableEq κ] : List (κ × α) → κ → α → List (κ × α)
  | [], k, v => [(k, v)]
  | (k2, v2) :: rest, k, v =>
      if k2 = k then (k2, v) :: rest else (k2, v2) :: aset rest k v

/-- Python `d.update(other)`: apply each assignment of `other` in order. -/
def aupdate {κ α : Type} [DecidableEq κ] (d other : List (κ × α)) : List (κ × α) :=
  other.foldl (fun acc kv => aset acc kv.1 kv.2) d

/-- The keys of a dict, in insertion order. -/
def akeys {κ α : Type} (d : List (κ × α)) : List κ :=
  d.map Prod.fst

/-- Python `str.lower()`, character by character. -/
def toLowerChars (s : String) : List Char :=
  s.toList.map Char.toLower

/-- Python `pat in s` on character lists: `pat` occurs contiguously in the
haystack. -/
def hasSubList (pat : List Char) : List Char → Bool
  | [] => pat.isEmpty
  | c :: t => pat.isPrefixOf (c :: t) || hasSubList pat t

/-- Lexicographic comparison of character lists by code point, the order
Python `sorted` uses on strings. -/
def charListLe : List Char → List Char → Bool
  | [], _ => true
  | _ :: _, [] => false
  | a :: as, b :: bs =>
      if a.toNat < b.toNat then true
      else if b.toNat < a.toNat then false
      else charListLe as bs

/-- String comparison by code points. -/
def strLe (a b : String) : Bool :=
  charListLe a.toList b.toList

/-- Insert a string into a list so that an already ascending list stays
ascending. -/
def insertSortedStr (x : String) : List String → List String
  | [] => [x]
  | y :: t => if strLe x y then x :: y :: t else y :: insertSortedStr x t

/-- Python `sorted(xs)` on a list of strings: insertion sort by code
points. -/
def sortStrings (xs : List String) : List String :=
  xs.foldr insertSortedStr []

/-- skills/base.py `SkillSpec`: immutable descriptor of one trainable skill.
The opaque configuration classes `env_cfg_cls` and `runner_cfg_cls` are
modelled as numeric handles; the core only passes them through. -/
structure SkillSpec where
  skill_id : String
  robot : String
  gym_id : String
  env_cfg_cls : Nat
  runner_cfg_cls : Nat
  description : String := ""
  tags : List String := []
  metadata : List (String × Json) := []

/-- skills/base.py `SkillSpec.to_metadata`: JSON-serializable dict, keys in
the insertion order of the source literal. -/
def SkillSpec.to_metadata (spec : SkillSpec) : List (String × Json) :=
  [("skill_id", Json.str spec.skill_id),
   ("robot", Json.str spec.robot),
   ("gym_id", Json.str spec.gym_id),
   ("description", Json.str spec.description),
   ("tags", Json.arr (spec.tags.map Json.str)),
   ("metadata", Json.obj spec.metadata)]

/-- Error taxonomy of the core, as structured values: the spec names them
DuplicateRegistration, UnknownSkill, ExternalRegistrationConflict,
HeterogeneousRobotFamily; the source raises ValueError / KeyError /
gymnasium errors carrying the same information in message text. -/
inductive Err where
  | duplicateRegistration (skill_id : String)
  | unknownSkill (skill_id : String) (known : List String)
  | externalRegistrationConflict (msg : String)
  | tooFewSkills
  | heterogeneousRobotFamily (robots : List String)
  | noFinalRunner

/-- One Gymnasium registration entry: the kwargs binding the two config
class handles under an environment id. -/
structure GymBinding where
  env_cfg_entry : Nat
  runner_cfg_entry : Nat

/-- The external Gymnasium registry, a dict keyed by gym id. -/
abbrev GymState := List (String × GymBinding)

/-- skills/base.py lines 86-89: `gym.envs.registry.pop(id)` inside
`try ... except KeyError: pass` — remove the binding, tolerating absence. -/
def gymPopIgnoreMissing (g : GymState) (id : String) : GymState :=
  g.filter (fun kv => kv.1 != id)

/-- Outcome of the external `gym.register` call (gymnasium is outside this
repository); a failure carries the GymRegistrationError message text. -/
inductive GymRegOutcome where
  | success
  | failure (msg : String)

/-- skills/base.py `SkillRegistry._ensure_gym_registration`: when `force`,
first pop any existing binding ignoring a missing key; then register,
swallowing a registration failure whose lowercased message contains
"exists" and propagating any other failure. -/
def ensureGymRegistration (spec : SkillSpec) (force : Bool) (g : GymState)
    (outcome : GymRegOutcome) : GymState × Except Err Unit :=
  let g1 := if force then gymPopIgnoreMissing g spec.gym_id else g
  match outcome with
  | GymRegOutcome.success =>
      (aset g1 spec.gym_id ⟨spec.env_cfg_cls, spec.runner_cfg_cls⟩, Except.ok ())
  | GymRegOutcome.failure msg =>
      if hasSubList "exists".toList (toLowerChars msg) then (g1, Except.ok ())
      else (g1, Except.error (Err.externalRegistrationConflict msg))

/-- skills/base.py `SkillRegistry`: dict from skill id to spec, iteration
order equal to registration order. -/
structure SkillRegistry where
  _skills : List (String × SkillSpec) := []

/-- skills/base.py `SkillRegistry.register`: duplicate without `force`
raises before any mutation; otherwise the spec is stored first and the
external Gymnasium registration is attempted afterwards, so an external
failure propagates with the spec already stored.  Returns the post-call
registry and gym states together with the raised-or-returned outcome. -/
def SkillRegistry.register (r : SkillRegistry) (spec : SkillSpec) (force : Bool)
    (register_gym : Bool) (g : GymState) (outcome : GymRegOutcome) :
    (SkillRegistry × GymState) × Except Err SkillSpec :=
  if acontains r._skills spec.skill_id && !force then
    ((r, g), Except.error (Err.duplicateRegistration spec.skill_id))
  else
    let r2 : SkillRegistry := ⟨aset r._skills spec.skill_id spec⟩
    if register_gym then
      match ensureGymRegistration spec force g outcome with
      | (g2, Except.ok ()) => ((r2, g2), Except.ok spec)
      | (g2, Except.error e) => ((r2, g2), Except.error e)
    else
      ((r2, g), Except.ok spec)

/-- skills/base.py `SkillRegistry.get`: the stored spec, or a KeyError whose
message lists `sorted(self._skills)` — all registered ids, sorted. -/
def SkillRegistry.get (r : SkillRegistry) (skill_id : String) : Except Err SkillSpec :=
  match alookup r._skills skill_id with
  | some spec => Except.ok spec
  | none => Except.error (Err.unknownSkill skill_id (sortStrings (akeys r._skills)))

/-- scripts/train_multiskill.py lines 200-203: the global override
`--max_iterations` is applied first and `--iterations_per_skill` is applied
after it, each only when supplied, over the factory default. -/
def resolveMaxIterations (factoryDefault : Nat)
    (max_iterations iterations_per_skill : Option Nat) : Nat :=
  let v1 := match max_iterations with
    | some m => m
    | none => factoryDefault
  match iterations_per_skill with
  | some i => i
  | none => v1

/-- CLI arguments of train_multiskill.py consumed by the modelled control
flow (video, wandb and launcher arguments are external concerns). -/
structure CliArgs where
  skills : List String
  combined_skill_id : Option String := none
  iterations_per_skill : Option Nat := none
  max_iterations : Option Nat := none

/-- Observable side effects of one curriculum run, in program order. -/
inductive Event where
  | makeEnv (gym_id : String)
  | runnerCreate (log_dir : String)
  | load (checkpoint : String)
  | seedEnv
  | learn (iterations : Nat)
  | saveCheckpoint (path : String)
  | closeEnv

/-- scripts/train_multiskill.py line 282: the checkpoint path recorded after
a stage, `os.path.join(log_dir, "model_" + str(iter) + ".pt")`. -/
def mkCheckpoint (log_dir : String) (finalIter : Nat) : String :=
  log_dir ++ "/model_" ++ toString finalIter ++ ".pt"

/-- External inputs of the per-stage loop: the factory default iteration
count of each task's runner config, the timestamped log directory chosen at
each stage index, and the runner's `current_learning_iteration` after each
stage's training call. -/
structure StageEnv where
  factoryIters : String → Nat
  logDirs : Nat → String
  finalIters : Nat → Nat
  envCfgs : Nat → Nat
  agentCfgs : Nat → Nat

/-- Events of one loop body of scripts/train_multiskill.py lines 190-291:
build the env, build the runner, load the previous stage's checkpoint when
one was recorded, seed, train for the resolved budget, record the new
checkpoint, and close the env on the way out. -/
def stageEvents (spec : SkillSpec) (iters : Nat) (log_dir : String)
    (finalIter : Nat) (lastCk : Option String) : List Event :=
  [Event.makeEnv spec.gym_id, Event.runnerCreate log_dir]
    ++ (match lastCk with
        | some c => [Event.load c]
        | none => [])
    ++ [Event.seedEnv, Event.learn iters,
        Event.saveCheckpoint (mkCheckpoint log_dir finalIter), Event.closeEnv]

/-- The stage loop of scripts/train_multiskill.py: fold over the resolved
specs threading the stage index and `last_checkpoint`, emitting each
stage's events; returns the trace and the final recorded checkpoint. -/
def runStages (se : StageEnv) (args : CliArgs) :
    List SkillSpec → Nat → Option String → List Event × Option String
  | [], _, lastCk => ([], lastCk)
  | spec :: rest, idx, lastCk =>
      let iters := resolveMaxIterations (se.factoryIters spec.gym_id)
        args.max_iterations args.iterations_per_skill
      let ck := mkCheckpoint (se.logDirs idx) (se.finalIters idx)
      let next := runStages se args rest (idx + 1) (some ck)
      (stageEvents spec iters (se.logDirs idx) (se.finalIters idx) lastCk ++ next.1,
       next.2)

/-- The checkpoints loaded before the first training call of a trace. -/
def loadsBeforeLearn : List Event → List String
  | [] => []
  | Event.learn _ :: _ => []
  | Event.load c :: rest => c :: loadsBeforeLearn rest
  | _ :: rest => loadsBeforeLearn rest

/-- Contents of a file written by the skill library. -/
inductive FileData where
  | policyArtifact
  | yamlDump (cfg : Nat)
  | pickleDump (cfg : Nat)
  | jsonDoc (doc : List (String × Json)) (indent : Nat)

/-- The filesystem seen by the skill library: the set of existing
directories (as segment lists) and a dict of files by path. -/
structure FS where
  dirs : List (List String) := []
  files : List (List String × FileData) := []

/-- Add a directory if absent; re-creating an existing one is a no-op. -/
def insertDir (ds : List (List String)) (d : List String) : List (List String) :=
  if d ∈ ds then ds else ds ++ [d]

/-- All the leading portions of a path, shortest first, up to length n. -/
def addPrefixPaths (ds : List (List String)) (p : List String) :
    Nat → List (List String)
  | 0 => insertDir ds []
  | k + 1 => insertDir (addPrefixPaths ds p k) (p.take (k + 1))

/-- `Path.mkdir(parents=True, exist_ok=True)`: create the directory and
every ancestor, never failing when any of them already exists. -/
def mkdirParents (fs : FS) (p : List String) : FS :=
  { fs with dirs := addPrefixPaths fs.dirs p p.length }

/-- Write (or overwrite in place) a file. -/
def writeFile (fs : FS) (p : List String) (data : FileData) : FS :=
  { fs with files := aset fs.files p data }

/-- utils/skill_library.py `SkillLibrary`: rooted at `root_dir`. -/
structure SkillLibrary where
  root_dir : List String

/-- `SkillLibrary.__init__`: record the root and create it. -/
def SkillLibrary.make (root : List String) (fs : FS) : SkillLibrary × FS :=
  (⟨root⟩, mkdirParents fs root)

/-- utils/skill_library.py `SkillLibrary._skill_dir`: descend one directory
level per `/`-separated segment of `skill_id` below the root, then
`mkdir(parents=True, exist_ok=True)`. -/
def SkillLibrary.skill_dir (lib : SkillLibrary) (fs : FS) (spec : SkillSpec) :
    FS × List String :=
  let path := lib.root_dir ++ spec.skill_id.splitOn "/"
  (mkdirParents fs path, path)

/-- The external runner as seen by the export path:
`getattr(runner, "current_learning_iteration", None)` is `none` when the
attribute is missing. -/
structure Runner where
  current_learning_iteration : Option Nat

/-- The JSON value stored under "iterations": the integer when available,
JSON null otherwise (Python `None` serializes to `null`). -/
def iterJson : Option Nat → Json
  | some n => Json.num n
  | none => Json.null

/-- utils/skill_library.py lines 65-75: `spec.to_metadata()` updated with
`exported_at` (the UTC second-resolution ISO timestamp plus a trailing
"Z"), `policy`, `log_dir` and `iterations`, then updated with `extras`
last, so extras win on key collision. -/
def exportMetadata (spec : SkillSpec) (utcnow : String) (policyName : String)
    (log_dir : String) (iters : Option Nat) (extras : List (String × Json)) :
    List (String × Json) :=
  let md := aupdate spec.to_metadata
    [("exported_at", Json.str (utcnow ++ "Z")),
     ("policy", Json.str policyName),
     ("log_dir", Json.str log_dir),
     ("iterations", iterJson iters)]
  aupdate md extras

/-- Insert a key-value pair into a list so that an already key-ascending
list stays key-ascending. -/
def insertSortedKV (x : String × Json) : List (String × Json) → List (String × Json)
  | [] => [x]
  | y :: t => if strLe x.1 y.1 then x :: y :: t else y :: insertSortedKV x t

/-- `json.dump(..., indent=2, sort_keys=True)` writes the object entries in
sorted key order. -/
def jsonDumpObj (doc : List (String × Json)) : List (String × Json) :=
  doc.foldr insertSortedKV []

/-- utils/skill_library.py `SkillLibrary.export`: make the skill directory,
save the policy artifact, dump both configs in both formats, write
metadata.json (sorted keys, indent 2), and return the policy path. -/
def SkillLibrary.export (lib : SkillLibrary) (fs : FS) (spec : SkillSpec)
    (runner : Runner) (agent_cfg env_cfg : Nat) (log_dir : String)
    (utcnow : String) (policy_filename : String)
    (extras : List (String × Json)) : FS × List String :=
  let p := lib.skill_dir fs spec
  let skill_dir := p.2
  let policy_path := skill_dir ++ [policy_filename]
  let fs2 := writeFile p.1 policy_path FileData.policyArtifact
  let fs3 := writeFile fs2 (skill_dir ++ ["agent.yaml"]) (FileData.yamlDump agent_cfg)
  let fs4 := writeFile fs3 (skill_dir ++ ["env.yaml"]) (FileData.yamlDump env_cfg)
  let fs5 := writeFile fs4 (skill_dir ++ ["agent.pkl"]) (FileData.pickleDump agent_cfg)
  let fs6 := writeFile fs5 (skill_dir ++ ["env.pkl"]) (FileData.pickleDump env_cfg)
  let md := exportMetadata spec utcnow policy_filename log_dir
    runner.current_learning_iteration extras
  let fs7 := writeFile fs6 (skill_dir ++ ["metadata.json"])
    (FileData.jsonDoc (jsonDumpObj md) 2)
  (fs7, policy_path)

/-- A placeholder spec for `specs[-1]` on a list known to be nonempty. -/
def defaultSpec : SkillSpec :=
  ⟨"", "", "", 0, 0, "", [], []⟩

/-- Resolution of every requested skill id through the registry, in order;
the first unknown id aborts (list comprehension over `get_skill`). -/
def resolveAll (r : SkillRegistry) (ids : List String) :
    Except Err (List SkillSpec) :=
  ids.mapM r.get

/-- Result of a completed curriculum run. -/
structure RunResult where
  combinedSpec : SkillSpec
  policyPath : List String
  fs : FS

/-- scripts/train_multiskill.py `main` after argument parsing: fail when
fewer than two skills are given; resolve all specs; fail when the robot
families differ, before any env is built; otherwise run the stage loop,
build the merged spec (skill id defaulting to robot/multi/timestamp, task
references from the last stage, tags multi+sequential, metadata.skills the
ordered trained ids) and export it through the skill library. -/
def mainRun (r : SkillRegistry) (args : CliArgs) (se : StageEnv)
    (now utcnow : String) (export_dir : List String) (fs0 : FS) :
    List Event × Except Err RunResult :=
  if args.skills.length < 2 then
    ([], Except.error Err.tooFewSkills)
  else
    match resolveAll r args.skills with
    | Except.error e => ([], Except.error e)
    | Except.ok specs =>
      let robots := (specs.map SkillSpec.robot).eraseDups
      if robots.length != 1 then
        ([], Except.error (Err.heterogeneousRobotFamily (sortStrings robots)))
      else
        let robot_name := robots.headD ""
        let libfs := SkillLibrary.make export_dir fs0
        let run := runStages se args specs 0 none
        match specs with
        | [] => (run.1, Except.error Err.noFinalRunner)
        | _ :: _ =>
          let lastIdx := specs.length - 1
          let combined_skill_id :=
            args.combined_skill_id.getD (robot_name ++ "/multi/" ++ now)
          let combinedSpec : SkillSpec :=
            { skill_id := combined_skill_id
              robot := robot_name
              gym_id := (specs.getLastD defaultSpec).gym_id
              env_cfg_cls := (specs.getLastD defaultSpec).env_cfg_cls
              runner_cfg_cls := (specs.getLastD defaultSpec).runner_cfg_cls
              description := "Merged policy trained sequentially on: "
                ++ String.intercalate ", " args.skills
              tags := ["multi", "sequential"]
              metadata := [("skills", Json.arr (args.skills.map Json.str))] }
          let finalRunner : Runner := ⟨some (se.finalIters lastIdx)⟩
          let outp := SkillLibrary.export libfs.1 libfs.2 combinedSpec finalRunner
            (se.agentCfgs lastIdx) (se.envCfgs lastIdx) (se.logDirs lastIdx)
            utcnow "policy.pt" []
          (run.1, Except.ok ⟨combinedSpec, outp.2, outp.1⟩)

/-- Demo skill: the go2 forward trot preset. -/
def demoSpec1 : SkillSpec :=
  { skill_id := "go2/velocity/trot_forward", robot := "go2"
    gym_id := "Go2-Velocity-Trot", env_cfg_cls := 1, runner_cfg_cls := 2
    description := "demo", tags := ["velocity"], metadata := [] }

/-- Demo skill: the go2 left turn preset. -/
def demoSpec2 : SkillSpec :=
  { skill_id := "go2/velocity/turn_left", robot := "go2"
    gym_id := "Go2-Velocity-TurnLeft", env_cfg_cls := 3, runner_cfg_cls := 4 }

/-- Demo skill on a different robot family. -/
def demoSpecH1 : SkillSpec :=
  { skill_id := "h1/velocity/walk", robot := "h1"
    gym_id := "H1-Velocity-Walk", env_cfg_cls := 5, runner_cfg_cls := 6 }

/-- A registry populated with the three demo skills. -/
def demoRegistry : SkillRegistry :=
  ⟨[(demoSpec1.skill_id, demoSpec1), (demoSpec2.skill_id, demoSpec2),
    (demoSpecH1.skill_id, demoSpecH1)]⟩

/-- Demo stage environment: fixed factory default, indexed log dirs and
final iteration counts. -/
def demoSE : StageEnv :=
  ⟨fun _ => 1500, fun i => "logs/stage" ++ toString i, fun i => 100 * (i + 1),
   fun i => i, fun i => i⟩

/-- Demo CLI arguments: a two-stage homogeneous go2 curriculum. -/
def demoArgs : CliArgs :=
  { skills := ["go2/velocity/trot_forward", "go2/velocity/turn_left"] }

/-- Demo CLI arguments mixing robot families. -/
def demoHetArgs : CliArgs :=
  { skills := ["go2/velocity/trot_forward", "h1/velocity/walk"] }

/-! ### Association-list lemmas -/

theorem alookup_aset_self {κ α : Type} [DecidableEq κ]
    (d : List (κ × α)) (k : κ) (v : α) : alookup (aset d k v) k = some v := by
  induction d with
  | nil => simp [aset, alookup]
  | cons kv rest ih =>
    by_cases h : kv.1 = k
    · simp [aset, alookup, h]
    · simpa [aset, alookup, h] using ih

theorem alookup_aset_ne {κ α : Type} [DecidableEq κ]
    (d : List (κ × α)) (k2 k : κ) (v : α) (h : k2 ≠ k) :
    alookup (aset d k2 v) k = alookup d k := by
  induction d with
  | nil => simp [aset, alookup, h]
  | cons kv rest ih =>
    by_cases h2 : kv.1 = k2
    · simp only [aset, h2, if_pos rfl]
      simp [alookup, h2, h]
    · by_cases h3 : kv.1 = k
      · simp [aset, alookup, h2, h3, Ne.symm h]
      · simp [aset, alookup, h2, h3, ih]

theorem alookup_aupdate_not_mem {κ α : Type} [DecidableEq κ]
    (other : List (κ × α)) (k : κ) (h : k ∉ akeys other) :
    ∀ d, alookup (aupdate d other) k = alookup d k := by
  induction other with
  | nil => intro d; simp [aupdate]
  | cons kv rest ih =>
    intro d
    simp only [akeys, List.map_cons, List.mem_cons] at h
    push_neg at h
    have step : aupdate d (kv :: rest) = aupdate (aset d kv.1 kv.2) rest := rfl
    rw [step, ih (by simpa [akeys] using h.2), alookup_aset_ne d kv.1 k kv.2 (fun e => h.1 e.symm)]

theorem alookup_aupdate_mem {κ α : Type} [DecidableEq κ]
    (other : List (κ × α)) (k : κ) (v : α)
    (hnd : (akeys other).Nodup) (h : alookup other k = some v) :
    ∀ d, alookup (aupdate d other) k = some v := by
  induction other with
  | nil => intro d; simp [alookup] at h
  | cons kv rest ih =>
    intro d
    obtain ⟨k1, v1⟩ := kv
    have step : aupdate d ((k1, v1) :: rest) = aupdate (aset d k1 v1) rest := rfl
    simp only [akeys, List.map_cons, List.nodup_cons] at hnd
    by_cases hk : k1 = k
    · subst hk
      have hv : v1 = v := by simpa [alookup] using h
      subst hv
      rw [step, alookup_aupdate_not_mem rest k1 (by simpa [akeys] using hnd.1),
        alookup_aset_self]
    · simp only [alookup, if_neg hk] at h
      rw [step, ih (by simpa [akeys] using hnd.2) h]

theorem mem_akeys_aset {κ α : Type} [DecidableEq κ]
    (d : List (κ × α)) (k : κ) (v : α) (x : κ)
    (hm : x ∈ akeys (aset d k v)) : x ∈ akeys d ∨ x = k := by
  induction d with
  | nil => simpa [aset, akeys] using hm
  | cons kv rest ih =>
    obtain ⟨k1, v1⟩ := kv
    by_cases h3 : k1 = k
    · rw [show aset ((k1, v1) :: rest) k v = (k1, v) :: rest from by simp [aset, h3]] at hm
      simp only [akeys, List.map_cons, List.mem_cons] at hm ⊢
      exact Or.inl hm
    · simp only [aset, if_neg h3, akeys, List.map_cons, List.mem_cons] at hm ⊢
      rcases hm with hm | hm
      · exact Or.inl (Or.inl hm)
      · rcases ih hm with hh | hh
        · exact Or.inl (Or.inr hh)
        · exact Or.inr hh

theorem akeys_aset_nodup {κ α : Type} [DecidableEq κ]
    (d : List (κ × α)) (k : κ) (v : α) (h : (akeys d).Nodup) :
    (akeys (aset d k v)).Nodup := by
  induction d with
  | nil => simp [aset, akeys]
  | cons kv rest ih =>
    simp only [akeys, List.map_cons, List.nodup_cons] at h
    by_cases h2 : kv.1 = k
    · simpa [aset, akeys, h2] using h
    · have hrest := ih h.2
      have hkmem : kv.1 ∉ akeys (aset rest k v) := by
        intro hm
        rcases mem_akeys_aset rest k v kv.1 hm with hh | hh
        · exact h.1 (by simpa [akeys] using hh)
        · exact h2 hh
      simp only [aset, if_neg h2, akeys, List.map_cons, List.nodup_cons]
      exact ⟨hkmem, hrest⟩

theorem filter_ne_of_not_contains {α : Type}
    (g : List (String × α)) (id : String) (h : acontains g id = false) :
    g.filter (fun kv => kv.1 != id) = g := by
  induction g with
  | nil => rfl
  | cons kv rest ih =>
    simp only [acontains, alookup] at h
    by_cases h2 : kv.1 = id
    · rw [if_pos h2] at h
      simp at h
    · rw [if_neg h2] at h
      simp only [acontains] at ih
      simp only [List.filter_cons]
      have hb : (kv.1 != id) = true := by simpa using h2
      rw [if_pos (by simp [hb]), ih h]

/-! ### Ordering lemmas for the sorted-keys model -/

theorem charListLe_cons_iff (a b : Char) (as bs : List Char) :
    charListLe (a :: as) (b :: bs) = true ↔
      a.toNat < b.toNat ∨ (a.toNat = b.toNat ∧ charListLe as bs = true) := by
  simp only [charListLe]
  by_cases h1 : a.toNat < b.toNat
  · simp [h1]
  · by_cases h2 : b.toNat < a.toNat
    · simp only [if_neg h1, if_pos h2]
      constructor
      · intro h; cases h
      · intro h
        rcases h with h | h
        · omega
        · omega
    · have he : a.toNat = b.toNat := by omega
      simp [h1, h2, he]

theorem charListLe_total : ∀ as bs, charListLe as bs = true ∨ charListLe bs as = true := by
  intro as
  induction as with
  | nil => intro bs; exact Or.inl rfl
  | cons a as ih =>
    intro bs
    cases bs with
    | nil => exact Or.inr rfl
    | cons b bs =>
      by_cases h1 : a.toNat < b.toNat
      · exact Or.inl ((charListLe_cons_iff a b as bs).2 (Or.inl h1))
      · by_cases h2 : b.toNat < a.toNat
        · exact Or.inr ((charListLe_cons_iff b a bs as).2 (Or.inl h2))
        · have he : a.toNat = b.toNat := by omega
          rcases ih bs with h | h
          · exact Or.inl ((charListLe_cons_iff a b as bs).2 (Or.inr ⟨he, h⟩))
          · exact Or.inr ((charListLe_cons_iff b a bs as).2 (Or.inr ⟨he.symm, h⟩))

theorem charListLe_trans : ∀ as bs cs, charListLe as bs = true →
    charListLe bs cs = true → charListLe as cs = true := by
  intro as
  induction as with
  | nil => intro bs cs _ _; rfl
  | cons a as ih =>
    intro bs cs hab hbc
    cases bs with
    | nil => simp [charListLe] at hab
    | cons b bs =>
      cases cs with
      | nil => simp [charListLe] at hbc
      | cons c cs =>
        rcases (charListLe_cons_iff a b as bs).1 hab with h | ⟨he1, h1⟩ <;>
          rcases (charListLe_cons_iff b c bs cs).1 hbc with h2 | ⟨he2, h2⟩
        · exact (charListLe_cons_iff a c as cs).2 (Or.inl (by omega))
        · exact (charListLe_cons_iff a c as cs).2 (Or.inl (by omega))
        · exact (charListLe_cons_iff a c as cs).2 (Or.inl (by omega))
        · exact (charListLe_cons_iff a c as cs).2 (Or.inr ⟨by omega, ih bs cs h1 h2⟩)

theorem strLe_total (a b : String) : strLe a b = true ∨ strLe b a = true :=
  charListLe_total a.toList b.toList

theorem strLe_trans (a b c : String) (h1 : strLe a b = true)
    (h2 : strLe b c = true) : strLe a c = true :=
  charListLe_trans a.toList b.toList c.toList h1 h2

theorem mem_insertSortedStr (x y : String) (l : List String) :
    y ∈ insertSortedStr x l ↔ y = x ∨ y ∈ l := by
  induction l with
  | nil => simp [insertSortedStr]
  | cons z t ih =>
    by_cases h : strLe x z
    · simp [insertSortedStr, h]
    · simp only [insertSortedStr, if_neg h, List.mem_cons, ih]
      tauto

theorem mem_sortStrings (x : String) (l : List String) :
    x ∈ sortStrings l ↔ x ∈ l := by
  induction l with
  | nil => simp [sortStrings]
  | cons z t ih =>
    have hz : sortStrings (z :: t) = insertSortedStr z (sortStrings t) := rfl
    rw [hz, mem_insertSortedStr]
    simp [ih]

theorem mem_insertSortedKV (x y : String × Json) (l : List (String × Json)) :
    y ∈ insertSortedKV x l ↔ y = x ∨ y ∈ l := by
  induction l with
  | nil => simp [insertSortedKV]
  | cons z t ih =>
    by_cases h : strLe x.1 z.1
    · simp [insertSortedKV, h]
    · simp only [insertSortedKV, if_neg h, List.mem_cons, ih]
      tauto

theorem pairwise_insertSortedKV (x : String × Json) (l : List (String × Json))
    (h : List.Pairwise (fun a b => strLe a.1 b.1 = true) l) :
    List.Pairwise (fun a b => strLe a.1 b.1 = true) (insertSortedKV x l) := by
  induction l with
  | nil => simp [insertSortedKV]
  | cons y t ih =>
    rcases List.pairwise_cons.1 h with ⟨hy, ht⟩
    by_cases hxy : strLe x.1 y.1
    · simp only [insertSortedKV, if_pos hxy]
      refine List.pairwise_cons.2 ⟨?_, h⟩
      intro b hb
      rcases List.mem_cons.1 hb with rfl | hb
      · exact hxy
      · exact strLe_trans x.1 y.1 b.1 hxy (hy b hb)
    · simp only [insertSortedKV, if_neg hxy]
      refine List.pairwise_cons.2 ⟨?_, ih ht⟩
      intro b hb
      rcases (mem_insertSortedKV x b t).1 hb with heq | hb
      · rw [heq]
        rcases strLe_total x.1 y.1 with h1 | h1
        · exact absurd h1 hxy
        · exact h1
      · exact hy b hb

theorem pairwise_jsonDumpObj (doc : List (String × Json)) :
    List.Pairwise (fun a b => strLe a.1 b.1 = true) (jsonDumpObj doc) := by
  induction doc with
  | nil => simp [jsonDumpObj]
  | cons kv rest ih =>
    have hz : jsonDumpObj (kv :: rest) = insertSortedKV kv (jsonDumpObj rest) := rfl
    rw [hz]
    exact pairwise_insertSortedKV kv (jsonDumpObj rest) ih

/-! ### Claims about override resolution, export metadata and the registry -/

/-- Claim C1 counterexample: the spec says the global override
(--max_iterations) takes precedence over --iterations_per_skill, but
lines 200-203 of train_multiskill.py apply --iterations_per_skill last:
with factory default 5, global 10 and per-skill 3 the resolved budget is
3, not the global 10. -/
theorem claim_c1_counterexample :
    resolveMaxIterations 5 (some 10) (some 3) = 3 ∧
      resolveMaxIterations 5 (some 10) (some 3) ≠ 10 :=
  ⟨rfl, by decide⟩

/-- Claim C1 (amended): override precedence in train_multiskill.py is
--iterations_per_skill over --max_iterations over the factory default; in
particular when both overrides are supplied the resolved iteration budget
equals iterations_per_skill. -/
theorem claim_c1_precedence (d m i : Nat) :
    resolveMaxIterations d (some m) (some i) = i ∧
      resolveMaxIterations d (some m) none = m ∧
      resolveMaxIterations d none (some i) = i ∧
      resolveMaxIterations d none none = d :=
  ⟨rfl, rfl, rfl, rfl⟩

/-- Claim C4 counterexample: in the metadata written by SkillLibrary.export
the task-factory key is spelled "gym_id", not "task_id", and the
"iterations" key is always present — bound to JSON null when the runner
has no final iteration count — rather than absent. -/
theorem claim_c4_counterexample :
    ("iterations" ∈ akeys
        (exportMetadata demoSpec1 "2024-01-01T00:00:00" "policy.pt" "logs/demo" none [])) ∧
      ("task_id" ∉ akeys
        (exportMetadata demoSpec1 "2024-01-01T00:00:00" "policy.pt" "logs/demo" none [])) := by
  constructor <;> decide

/-- Claim C4 (amended): metadata.json contains exactly the keys skill_id,
robot, gym_id (the task-factory id), description, tags, metadata,
exported_at, policy, log_dir and iterations, where iterations is the
integer count when the checkpoint source provides one and JSON null
otherwise; exported_at ends in "Z"; caller extras are merged last and win
on key collision; and the serialized object lists its keys in sorted
order (the export call also fixes indent 2 on the written file). -/
theorem claim_c4_export_metadata (spec : SkillSpec) (ts pol ld : String)
    (it : Option Nat) (extras : List (String × Json))
    (hex : (akeys extras).Nodup) :
    akeys (exportMetadata spec ts pol ld it []) =
      ["skill_id", "robot", "gym_id", "description", "tags", "metadata",
       "exported_at", "policy", "log_dir", "iterations"] ∧
    alookup (exportMetadata spec ts pol ld it []) "iterations" = some (iterJson it) ∧
    alookup (exportMetadata spec ts pol ld it []) "exported_at"
      = some (Json.str (ts ++ "Z")) ∧
    (∀ k v, alookup extras k = some v →
      alookup (exportMetadata spec ts pol ld it extras) k = some v) ∧
    List.Pairwise (fun a b => strLe a b = true)
      (akeys (jsonDumpObj (exportMetadata spec ts pol ld it extras))) := by
  refine ⟨rfl, rfl, rfl, ?_, ?_⟩
  · intro k v hv
    exact alookup_aupdate_mem extras k v hex hv _
  · have hp := pairwise_jsonDumpObj (exportMetadata spec ts pol ld it extras)
    exact List.Pairwise.map Prod.fst (fun a b hab => hab) hp

/-- Witness for the amended claim C4 at a concrete export. -/
theorem claim_c4_export_metadata_witness :
    (akeys ([("note", Json.str "x")] : List (String × Json))).Nodup ∧
      akeys (exportMetadata demoSpec1 "2024-01-01T00:00:00" "policy.pt"
          "logs/demo" (some 42) []) =
        ["skill_id", "robot", "gym_id", "description", "tags", "metadata",
         "exported_at", "policy", "log_dir", "iterations"] :=
  ⟨by decide,
   (claim_c4_export_metadata demoSpec1 "2024-01-01T00:00:00" "policy.pt"
      "logs/demo" (some 42) [("note", Json.str "x")] (by decide)).1⟩

/-- Claim C5: registering an already present skill id without force fails
with the duplicate-registration error leaving both the registry and the
gym state unchanged; with force (and a successful external registration)
it succeeds and the stored spec for that id is the new one; and register
preserves the invariant that each id maps to exactly one spec. -/
theorem claim_c5_register (r : SkillRegistry) (s2 : SkillSpec) (g : GymState)
    (hdup : acontains r._skills s2.skill_id = true) :
    r.register s2 false true g GymRegOutcome.success
        = ((r, g), Except.error (Err.duplicateRegistration s2.skill_id)) ∧
    (r.register s2 true true g GymRegOutcome.success).2 = Except.ok s2 ∧
    ((r.register s2 true true g GymRegOutcome.success).1.1).get s2.skill_id
        = Except.ok s2 ∧
    (∀ force rg o, (akeys r._skills).Nodup →
      (akeys ((r.register s2 force rg g o).1.1)._skills).Nodup) := by
  refine ⟨?_, ?_, ?_, ?_⟩
  · simp [SkillRegistry.register, hdup]
  · simp [SkillRegistry.register, hdup, ensureGymRegistration]
  · have hred : ((r.register s2 true true g GymRegOutcome.success).1.1)
        = ⟨aset r._skills s2.skill_id s2⟩ := by
      simp [SkillRegistry.register, hdup, ensureGymRegistration]
    rw [hred]
    simp [SkillRegistry.get, alookup_aset_self]
  · intro force rg o hnd
    by_cases hc : (acontains r._skills s2.skill_id && !force) = true
    · simp [SkillRegistry.register, hc]
      exact hnd
    · rcases he : ensureGymRegistration s2 force g o with ⟨g2, res⟩
      cases res with
      | ok u =>
        cases u
        cases rg <;>
          simp [SkillRegistry.register, hc, he] <;>
          exact akeys_aset_nodup r._skills s2.skill_id s2 hnd
      | error e =>
        cases rg <;>
          simp [SkillRegistry.register, hc, he] <;>
          exact akeys_aset_nodup r._skills s2.skill_id s2 hnd

/-- Witness for claim C5 at a concrete registry. -/
theorem claim_c5_register_witness :
    acontains demoRegistry._skills demoSpec2.skill_id = true ∧
      demoRegistry.register demoSpec2 false true [] GymRegOutcome.success
        = ((demoRegistry, []),
           Except.error (Err.duplicateRegistration demoSpec2.skill_id)) :=
  ⟨by decide, (claim_c5_register demoRegistry demoSpec2 [] (by decide)).1⟩

/-- Claim C7: under force the existing external binding for the gym id is
removed first, and a missing binding is tolerated (removal is a no-op, no
error); a subsequent external registration failure whose message contains
"exists" (case-insensitively) is swallowed, while any other failure is
propagated as the external-registration conflict. -/
theorem claim_c7_gym_registration (spec : SkillSpec) (g : GymState) (msg : String) :
    ensureGymRegistration spec true g GymRegOutcome.success
        = (aset (gymPopIgnoreMissing g spec.gym_id) spec.gym_id
            ⟨spec.env_cfg_cls, spec.runner_cfg_cls⟩, Except.ok ()) ∧
    (acontains g spec.gym_id = false → gymPopIgnoreMissing g spec.gym_id = g) ∧
    (∀ force, hasSubList "exists".toList (toLowerChars msg) = true →
      (ensureGymRegistration spec force g (GymRegOutcome.failure msg)).2
        = Except.ok ()) ∧
    (∀ force, hasSubList "exists".toList (toLowerChars msg) = false →
      (ensureGymRegistration spec force g (GymRegOutcome.failure msg)).2
        = Except.error (Err.externalRegistrationConflict msg)) := by
  refine ⟨rfl, ?_, ?_, ?_⟩
  · intro h
    exact filter_ne_of_not_contains g spec.gym_id h
  · intro force h
    have h2 : hasSubList ['e', 'x', 'i', 's', 't', 's'] (toLowerChars msg) = true := h
    simp [ensureGymRegistration, h2]
  · intro force h
    have h2 : hasSubList ['e', 'x', 'i', 's', 't', 's'] (toLowerChars msg) = false := h
    simp [ensureGymRegistration, h2]

/-- Witness for claim C7 on a concrete gymnasium message. -/
theorem claim_c7_gym_registration_witness :
    hasSubList "exists".toList (toLowerChars "Env already EXISTS") = true ∧
      (ensureGymRegistration demoSpec1 true []
          (GymRegOutcome.failure "Env already EXISTS")).2 = Except.ok () :=
  ⟨by decide,
   (claim_c7_gym_registration demoSpec1 [] "Env already EXISTS").2.2.1 true (by decide)⟩

/-- Claim C9: looking up an id that is not registered fails with the
unknown-skill error whose payload is the sorted list of every registered
id (the sorted list enumerates exactly the registered ids); looking up a
registered id returns its stored spec. -/
theorem claim_c9_get (r : SkillRegistry) (id : String) :
    (acontains r._skills id = false →
      r.get id = Except.error (Err.unknownSkill id (sortStrings (akeys r._skills))) ∧
      ∀ k, k ∈ sortStrings (akeys r._skills) ↔ k ∈ akeys r._skills) ∧
    (∀ spec, alookup r._skills id = some spec → r.get id = Except.ok spec) := by
  constructor
  · intro h
    constructor
    · have hl : alookup r._skills id = none := by
        simpa [acontains, Option.isSome_iff_exists] using h
      simp [SkillRegistry.get, hl]
    · intro k
      exact mem_sortStrings k (akeys r._skills)
  · intro spec h
    simp [SkillRegistry.get, h]

/-- Witness for claim C9 at a concrete registry and a missing id. -/
theorem claim_c9_get_witness :
    acontains demoRegistry._skills "missing" = false ∧
      demoRegistry.get "missing" = Except.error (Err.unknownSkill "missing"
        (sortStrings (akeys demoRegistry._skills))) :=
  ⟨by decide, ((claim_c9_get demoRegistry "missing").1 (by decide)).1⟩

/-- Claim C10: register stores the spec before attempting the external
registration, so when the external failure is propagated the new spec is
nevertheless present in the registry; and in the duplicate-without-force
case the error is raised before any mutation, returning the registry and
gym state unchanged. -/
theorem claim_c10_register_not_atomic (r : SkillRegistry) (spec : SkillSpec)
    (g : GymState) (msg : String)
    (hnew : acontains r._skills spec.skill_id = false)
    (hmsg : hasSubList "exists".toList (toLowerChars msg) = false) :
    (r.register spec false true g (GymRegOutcome.failure msg)).2
        = Except.error (Err.externalRegistrationConflict msg) ∧
    alookup ((r.register spec false true g (GymRegOutcome.failure msg)).1.1)._skills
        spec.skill_id = some spec ∧
    (∀ r2 : SkillRegistry, acontains r2._skills spec.skill_id = true →
      ∀ o, r2.register spec false true g o
        = ((r2, g), Except.error (Err.duplicateRegistration spec.skill_id))) := by
  have hmsg2 : hasSubList ['e', 'x', 'i', 's', 't', 's'] (toLowerChars msg) = false := hmsg
  refine ⟨?_, ?_, ?_⟩
  · simp [SkillRegistry.register, hnew, ensureGymRegistration, hmsg2]
  · have hred : ((r.register spec false true g (GymRegOutcome.failure msg)).1.1)
        = ⟨aset r._skills spec.skill_id spec⟩ := by
      simp [SkillRegistry.register, hnew, ensureGymRegistration, hmsg2]
    rw [hred]
    exact alookup_aset_self r._skills spec.skill_id spec
  · intro r2 hdup o
    simp [SkillRegistry.register, hdup]

/-- Witness for claim C10 at a concrete registry and failure message. -/
theorem claim_c10_register_not_atomic_witness :
    acontains (SkillRegistry.mk [])._skills demoSpec1.skill_id = false ∧
      hasSubList "exists".toList (toLowerChars "namespace frozen") = false ∧
      alookup (((SkillRegistry.mk []).register demoSpec1 false true []
          (GymRegOutcome.failure "namespace frozen")).1.1)._skills
        demoSpec1.skill_id = some demoSpec1 :=
  ⟨by decide, by decide,
   (claim_c10_register_not_atomic (SkillRegistry.mk []) demoSpec1 []
      "namespace frozen" (by decide) (by decide)).2.1⟩

/-! ### The stage loop: warm-start chaining -/

/-- The `last_checkpoint` value flowing into the stage at absolute index
`idx + k` when the loop was entered at index `idx` with `ck0`. -/
def ckInto (se : StageEnv) (ck0 : Option String) (idx : Nat) : Nat → Option String
  | 0 => ck0
  | k + 1 => some (mkCheckpoint (se.logDirs (idx + k)) (se.finalIters (idx + k)))

theorem ckInto_shift (se : StageEnv) (ck : Option String) (idx k : Nat) :
    ckInto se ck idx (k + 1)
      = ckInto se (some (mkCheckpoint (se.logDirs idx) (se.finalIters idx)))
          (idx + 1) k := by
  cases k with
  | zero => simp [ckInto]
  | succ j =>
    have h : idx + (j + 1) = idx + 1 + j := by omega
    simp [ckInto, h]

theorem runStages_split (se : StageEnv) (args : CliArgs) :
    ∀ (k : Nat) (specs : List SkillSpec) (idx : Nat) (ck : Option String),
    ∃ pre, (runStages se args specs idx ck).1
      = pre ++ (runStages se args (specs.drop k) (idx + k) (ckInto se ck idx k)).1 := by
  intro k
  induction k with
  | zero =>
    intro specs idx ck
    exact ⟨[], by simp [ckInto]⟩
  | succ k ih =>
    intro specs idx ck
    cases specs with
    | nil =>
      refine ⟨[], ?_⟩
      simp [runStages]
    | cons s rest =>
      obtain ⟨pre, hpre⟩ := ih rest (idx + 1)
        (some (mkCheckpoint (se.logDirs idx) (se.finalIters idx)))
      refine ⟨stageEvents s (resolveMaxIterations (se.factoryIters s.gym_id)
          args.max_iterations args.iterations_per_skill)
          (se.logDirs idx) (se.finalIters idx) ck ++ pre, ?_⟩
      have hstep : (runStages se args (s :: rest) idx ck).1
          = stageEvents s (resolveMaxIterations (se.factoryIters s.gym_id)
              args.max_iterations args.iterations_per_skill)
              (se.logDirs idx) (se.finalIters idx) ck
            ++ (runStages se args rest (idx + 1)
                (some (mkCheckpoint (se.logDirs idx) (se.finalIters idx)))).1 := rfl
      rw [hstep, hpre, List.append_assoc]
      have hd : (s :: rest).drop (k + 1) = rest.drop k := rfl
      have hidx : idx + (k + 1) = idx + 1 + k := by omega
      rw [hd, ckInto_shift se ck idx k, hidx]

theorem loadsBeforeLearn_stage_some (spec : SkillSpec) (iters : Nat)
    (ld : String) (fi : Nat) (c : String) :
    loadsBeforeLearn (stageEvents spec iters ld fi (some c)) = [c] := rfl

theorem loadsBeforeLearn_stage_none (spec : SkillSpec) (iters : Nat)
    (ld : String) (fi : Nat) :
    loadsBeforeLearn (stageEvents spec iters ld fi none) = [] := rfl

/-- Claim C2: for every stage after the first, the trace of the whole run
contains that stage's events, whose warm-start load is exactly the
checkpoint recorded by the previous stage — it occurs before the stage's
training call (the only load before the first learn of the stage's
events) — and the checkpoint the stage itself records is the path
deterministically derived from its log dir and the learner's final
iteration count. -/
theorem claim_c2_warm_start (se : StageEnv) (args : CliArgs)
    (specs : List SkillSpec) (k : Nat) (spec : SkillSpec)
    (restSpecs : List SkillSpec) (hk : 0 < k)
    (hdrop : specs.drop k = spec :: restSpecs) :
    (∃ pre rest,
      (runStages se args specs 0 none).1
        = pre
          ++ stageEvents spec (resolveMaxIterations (se.factoryIters spec.gym_id)
               args.max_iterations args.iterations_per_skill)
             (se.logDirs k) (se.finalIters k)
             (some (mkCheckpoint (se.logDirs (k - 1)) (se.finalIters (k - 1))))
          ++ rest) ∧
    loadsBeforeLearn (stageEvents spec
        (resolveMaxIterations (se.factoryIters spec.gym_id)
          args.max_iterations args.iterations_per_skill)
        (se.logDirs k) (se.finalIters k)
        (some (mkCheckpoint (se.logDirs (k - 1)) (se.finalIters (k - 1)))))
      = [mkCheckpoint (se.logDirs (k - 1)) (se.finalIters (k - 1))] ∧
    Event.saveCheckpoint (mkCheckpoint (se.logDirs k) (se.finalIters k))
      ∈ stageEvents spec (resolveMaxIterations (se.factoryIters spec.gym_id)
          args.max_iterations args.iterations_per_skill)
          (se.logDirs k) (se.finalIters k)
          (some (mkCheckpoint (se.logDirs (k - 1)) (se.finalIters (k - 1)))) := by
  obtain ⟨j, rfl⟩ : ∃ j, k = j + 1 := ⟨k - 1, by omega⟩
  refine ⟨?_, loadsBeforeLearn_stage_some spec _ _ _ _, by simp [stageEvents]⟩
  obtain ⟨pre, hpre⟩ := runStages_split se args (j + 1) specs 0 none
  rw [hdrop] at hpre
  have hck : ckInto se none 0 (j + 1)
      = some (mkCheckpoint (se.logDirs j) (se.finalIters j)) := by
    simp [ckInto]
  have hidx : 0 + (j + 1) = j + 1 := by omega
  rw [hck, hidx] at hpre
  have hstep : (runStages se args (spec :: restSpecs) (j + 1)
      (some (mkCheckpoint (se.logDirs j) (se.finalIters j)))).1
      = stageEvents spec (resolveMaxIterations (se.factoryIters spec.gym_id)
          args.max_iterations args.iterations_per_skill)
          (se.logDirs (j + 1)) (se.finalIters (j + 1))
          (some (mkCheckpoint (se.logDirs j) (se.finalIters j)))
        ++ (runStages se args restSpecs (j + 1 + 1)
            (some (mkCheckpoint (se.logDirs (j + 1)) (se.finalIters (j + 1))))).1 := rfl
  rw [hstep] at hpre
  refine ⟨pre,
    (runStages se args restSpecs (j + 1 + 1)
      (some (mkCheckpoint (se.logDirs (j + 1)) (se.finalIters (j + 1))))).1, ?_⟩
  simp only [Nat.add_sub_cancel]
  rw [hpre, List.append_assoc]

/-- Witness for claim C2 on the two-stage demo curriculum. -/
theorem claim_c2_warm_start_witness :
    0 < 1 ∧ ([demoSpec1, demoSpec2].drop 1 = [demoSpec2]) ∧
      loadsBeforeLearn (stageEvents demoSpec2
          (resolveMaxIterations (demoSE.factoryIters demoSpec2.gym_id)
            demoArgs.max_iterations demoArgs.iterations_per_skill)
          (demoSE.logDirs 1) (demoSE.finalIters 1)
          (some (mkCheckpoint (demoSE.logDirs 0) (demoSE.finalIters 0))))
        = [mkCheckpoint (demoSE.logDirs 0) (demoSE.finalIters 0)] :=
  ⟨by decide, rfl,
   (claim_c2_warm_start demoSE demoArgs [demoSpec1, demoSpec2] 1 demoSpec2 []
      (by decide) rfl).2.1⟩

/-- Claim C6: with fewer than two skills the run fails at once with the
too-few-skills error and an empty trace (no env was built); with at least
two resolved skills whose robot families differ, it fails with the
heterogeneous-robot-family error, still with an empty trace — before any
env is built; with a homogeneous family it proceeds to training: the trace
contains a learn event and the run completes. -/
theorem claim_c6_validation (r : SkillRegistry) (args : CliArgs) (se : StageEnv)
    (now utcnow : String) (exdir : List String) (fs0 : FS) :
    (args.skills.length < 2 →
      mainRun r args se now utcnow exdir fs0
        = ([], Except.error Err.tooFewSkills)) ∧
    (∀ specs, 2 ≤ args.skills.length →
      resolveAll r args.skills = Except.ok specs →
      (((specs.map SkillSpec.robot).eraseDups.length ≠ 1 →
        mainRun r args se now utcnow exdir fs0
          = ([], Except.error (Err.heterogeneousRobotFamily
              (sortStrings (specs.map SkillSpec.robot).eraseDups)))) ∧
      ((specs.map SkillSpec.robot).eraseDups.length = 1 →
        (∃ n, Event.learn n ∈ (mainRun r args se now utcnow exdir fs0).1) ∧
        ∃ res, (mainRun r args se now utcnow exdir fs0).2 = Except.ok res))) := by
  constructor
  · intro h
    simp [mainRun, h]
  · intro specs hlen hres
    have hnl : ¬ (args.skills.length < 2) := by omega
    constructor
    · intro hne
      have hb : ((specs.map SkillSpec.robot).eraseDups.length != 1) = true := by
        simpa using hne
      simp [mainRun, hnl, hres, hb]
    · intro heq
      cases specs with
      | nil => exact absurd heq (by decide)
      | cons s rest =>
        have hb : (((s :: rest).map SkillSpec.robot).eraseDups.length != 1) = false := by
          simpa using heq
        constructor
        · refine ⟨resolveMaxIterations (se.factoryIters s.gym_id)
            args.max_iterations args.iterations_per_skill, ?_⟩
          simp only [mainRun, if_neg hnl, hres, hb]
          simp [runStages, stageEvents]
        · simp only [mainRun, if_neg hnl, hres, hb, Bool.false_eq_true, if_false]
          exact ⟨_, rfl⟩

/-- Witness for claim C6: the mixed-robot demo curriculum fails before any
env is built, the homogeneous one completes. -/
theorem claim_c6_validation_witness :
    2 ≤ demoHetArgs.skills.length ∧
      mainRun demoRegistry demoHetArgs demoSE "t" "u" ["skill_library"] ⟨[], []⟩
        = ([], Except.error (Err.heterogeneousRobotFamily
            (sortStrings ([demoSpec1, demoSpecH1].map SkillSpec.robot).eraseDups))) ∧
      ∃ res, (mainRun demoRegistry demoArgs demoSE "t" "u" ["skill_library"] ⟨[], []⟩).2
        = Except.ok res :=
  ⟨by decide,
   ((claim_c6_validation demoRegistry demoHetArgs demoSE "t" "u" ["skill_library"]
      ⟨[], []⟩).2 [demoSpec1, demoSpecH1] (by decide) rfl).1 (by decide),
   (((claim_c6_validation demoRegistry demoArgs demoSE "t" "u" ["skill_library"]
      ⟨[], []⟩).2 [demoSpec1, demoSpec2] (by decide) rfl).2 (by decide)).2⟩

/-- Claim C3: after a homogeneous curriculum completes, the merged
SkillSpec has the caller-supplied combined id when given and otherwise
robot/multi/timestamp, task and learner factory references (gym id and
both config classes) equal to the last stage's, tags multi+sequential,
and metadata.skills the ordered list of trained stage skill ids. -/
theorem claim_c3_merged_spec (r : SkillRegistry) (args : CliArgs) (se : StageEnv)
    (now utcnow : String) (exdir : List String) (fs0 : FS)
    (specs : List SkillSpec) (robot : String)
    (hlen : 2 ≤ args.skills.length)
    (hres : resolveAll r args.skills = Except.ok specs)
    (hrob : (specs.map SkillSpec.robot).eraseDups = [robot]) :
    ∃ tr res, mainRun r args se now utcnow exdir fs0 = (tr, Except.ok res) ∧
      res.combinedSpec.skill_id
        = args.combined_skill_id.getD (robot ++ "/multi/" ++ now) ∧
      res.combinedSpec.robot = robot ∧
      res.combinedSpec.gym_id = (specs.getLastD defaultSpec).gym_id ∧
      res.combinedSpec.env_cfg_cls = (specs.getLastD defaultSpec).env_cfg_cls ∧
      res.combinedSpec.runner_cfg_cls = (specs.getLastD defaultSpec).runner_cfg_cls ∧
      res.combinedSpec.tags = ["multi", "sequential"] ∧
      res.combinedSpec.metadata = [("skills", Json.arr (args.skills.map Json.str))] := by
  have hnl : ¬ (args.skills.length < 2) := by omega
  cases specs with
  | nil =>
    have h0 : ([] : List String) = [robot] := hrob
    exact absurd h0 (by simp)
  | cons s rest =>
    have hb : (((s :: rest).map SkillSpec.robot).eraseDups.length != 1) = false := by
      rw [hrob]
      rfl
    simp only [mainRun, if_neg hnl, hres, hb, Bool.false_eq_true, if_false]
    refine ⟨_, _, rfl, ?_, ?_, rfl, rfl, rfl, rfl, rfl⟩
    · rw [hrob]
      rfl
    · rw [hrob]
      rfl

/-- Witness for claim C3 on the two-stage demo curriculum. -/
theorem claim_c3_merged_spec_witness :
    ∃ tr res,
      mainRun demoRegistry demoArgs demoSE "20240101" "T" ["skill_library"] ⟨[], []⟩
        = (tr, Except.ok res) ∧
      res.combinedSpec.tags = ["multi", "sequential"] ∧
      res.combinedSpec.metadata
        = [("skills", Json.arr (demoArgs.skills.map Json.str))] := by
  obtain ⟨tr, res, h1, h2, h3, h4, h5, h6, h7, h8⟩ :=
    claim_c3_merged_spec demoRegistry demoArgs demoSE "20240101" "T"
      ["skill_library"] ⟨[], []⟩ [demoSpec1, demoSpec2] "go2"
      (by decide) rfl (by decide)
  exact ⟨tr, res, h1, h7, h8⟩

/-! ### The skill library on-disk layout -/

theorem mem_insertDir_self (ds : List (List String)) (d : List String) :
    d ∈ insertDir ds d := by
  by_cases h : d ∈ ds <;> simp [insertDir, h]

theorem mem_insertDir_of_mem (ds : List (List String)) (d x : List String)
    (h : x ∈ ds) : x ∈ insertDir ds d := by
  by_cases h2 : d ∈ ds <;> simp [insertDir, h2, h]

theorem take_mem_addPrefixPaths (ds : List (List String)) (p : List String) :
    ∀ n k, k ≤ n → p.take k ∈ addPrefixPaths ds p n := by
  intro n
  induction n with
  | zero =>
    intro k hk
    have hk0 : k = 0 := by omega
    subst hk0
    simpa [addPrefixPaths] using mem_insertDir_self ds []
  | succ n ih =>
    intro k hk
    by_cases hk2 : k = n + 1
    · subst hk2
      exact mem_insertDir_self (addPrefixPaths ds p n) (p.take (n + 1))
    · have hk3 : k ≤ n := by omega
      exact mem_insertDir_of_mem (addPrefixPaths ds p n) (p.take (n + 1))
        (p.take k) (ih k hk3)

theorem addPrefixPaths_of_all_mem (ds : List (List String)) (p : List String) :
    ∀ n, (∀ k, k ≤ n → p.take k ∈ ds) → addPrefixPaths ds p n = ds := by
  intro n
  induction n with
  | zero =>
    intro h
    have h0 : ([] : List String) ∈ ds := by simpa using h 0 (Nat.le_refl 0)
    simp [addPrefixPaths, insertDir, h0]
  | succ n ih =>
    intro h
    have hstep : addPrefixPaths ds p (n + 1)
        = insertDir (addPrefixPaths ds p n) (p.take (n + 1)) := rfl
    rw [hstep, ih (fun k hk => h k (by omega))]
    have hmem := h (n + 1) (Nat.le_refl (n + 1))
    simp [insertDir, hmem]

/-- Re-creating an already created directory tree is a no-op: the model of
`exist_ok=True` idempotence. -/
theorem mkdirParents_idem (fs : FS) (p : List String) :
    mkdirParents (mkdirParents fs p) p = mkdirParents fs p := by
  have h : addPrefixPaths (addPrefixPaths fs.dirs p p.length) p p.length
      = addPrefixPaths fs.dirs p p.length :=
    addPrefixPaths_of_all_mem (addPrefixPaths fs.dirs p p.length) p p.length
      (fun k hk => take_mem_addPrefixPaths fs.dirs p p.length k hk)
  simp [mkdirParents, h]

/-- Claim C8: export derives the target directory by descending one level
per `/`-separated segment of the skill id under the library root, creates
every leading portion of that path idempotently, writes the policy
artifact, the four config files (yaml and pickle for each of the two
configs) and metadata.json (sorted keys, indent 2), and returns the
policy artifact's path. -/
theorem claim_c8_export_layout (lib : SkillLibrary) (fs : FS) (spec : SkillSpec)
    (runner : Runner) (ac ec : Nat) (ld utc pf : String)
    (extras : List (String × Json)) (out : FS × List String)
    (hpf : pf ∉ ["agent.yaml", "env.yaml", "agent.pkl", "env.pkl", "metadata.json"])
    (hout : SkillLibrary.export lib fs spec runner ac ec ld utc pf extras = out) :
    out.2 = lib.root_dir ++ spec.skill_id.splitOn "/" ++ [pf] ∧
    (∀ k, k ≤ (lib.root_dir ++ spec.skill_id.splitOn "/").length →
      (lib.root_dir ++ spec.skill_id.splitOn "/").take k ∈ out.1.dirs) ∧
    alookup out.1.files (lib.root_dir ++ spec.skill_id.splitOn "/" ++ [pf])
      = some FileData.policyArtifact ∧
    alookup out.1.files (lib.root_dir ++ spec.skill_id.splitOn "/" ++ ["agent.yaml"])
      = some (FileData.yamlDump ac) ∧
    alookup out.1.files (lib.root_dir ++ spec.skill_id.splitOn "/" ++ ["env.yaml"])
      = some (FileData.yamlDump ec) ∧
    alookup out.1.files (lib.root_dir ++ spec.skill_id.splitOn "/" ++ ["agent.pkl"])
      = some (FileData.pickleDump ac) ∧
    alookup out.1.files (lib.root_dir ++ spec.skill_id.splitOn "/" ++ ["env.pkl"])
      = some (FileData.pickleDump ec) ∧
    alookup out.1.files (lib.root_dir ++ spec.skill_id.splitOn "/" ++ ["metadata.json"])
      = some (FileData.jsonDoc (jsonDumpObj (exportMetadata spec utc pf ld
          runner.current_learning_iteration extras)) 2) ∧
    (∀ (fs2 : FS) (q : List String),
      mkdirParents (mkdirParents fs2 q) q = mkdirParents fs2 q) := by
  subst hout
  have hp : pf ≠ "agent.yaml" ∧ pf ≠ "env.yaml" ∧ pf ≠ "agent.pkl" ∧
      pf ≠ "env.pkl" ∧ pf ≠ "metadata.json" := by
    simp only [List.mem_cons, List.not_mem_nil, or_false] at hpf
    push_neg at hpf
    exact hpf
  have hne : ∀ (a b : String), a ≠ b →
      (lib.root_dir ++ spec.skill_id.splitOn "/") ++ [a]
        ≠ (lib.root_dir ++ spec.skill_id.splitOn "/") ++ [b] := by
    intro a b hab he
    apply hab
    have h2 := congrArg
      (List.drop (lib.root_dir ++ spec.skill_id.splitOn "/").length) he
    simpa [List.drop_left] using h2
  have hfiles : (SkillLibrary.export lib fs spec runner ac ec ld utc pf extras).1.files
      = aset (aset (aset (aset (aset (aset fs.files
          (lib.root_dir ++ spec.skill_id.splitOn "/" ++ [pf])
            FileData.policyArtifact)
          (lib.root_dir ++ spec.skill_id.splitOn "/" ++ ["agent.yaml"])
            (FileData.yamlDump ac))
          (lib.root_dir ++ spec.skill_id.splitOn "/" ++ ["env.yaml"])
            (FileData.yamlDump ec))
          (lib.root_dir ++ spec.skill_id.splitOn "/" ++ ["agent.pkl"])
            (FileData.pickleDump ac))
          (lib.root_dir ++ spec.skill_id.splitOn "/" ++ ["env.pkl"])
            (FileData.pickleDump ec))
          (lib.root_dir ++ spec.skill_id.splitOn "/" ++ ["metadata.json"])
            (FileData.jsonDoc (jsonDumpObj (exportMetadata spec utc pf ld
              runner.current_learning_iteration extras)) 2) := rfl
  have hdirs : (SkillLibrary.export lib fs spec runner ac ec ld utc pf extras).1.dirs
      = addPrefixPaths fs.dirs (lib.root_dir ++ spec.skill_id.splitOn "/")
          (lib.root_dir ++ spec.skill_id.splitOn "/").length := rfl
  refine ⟨rfl, ?_, ?_, ?_, ?_, ?_, ?_, ?_, fun fs2 q => mkdirParents_idem fs2 q⟩
  · intro k hk
    rw [hdirs]
    exact take_mem_addPrefixPaths fs.dirs _ _ k hk
  · rw [hfiles,
      alookup_aset_ne _ _ _ _ (hne _ _ (fun e => hp.2.2.2.2 e.symm)),
      alookup_aset_ne _ _ _ _ (hne _ _ (fun e => hp.2.2.2.1 e.symm)),
      alookup_aset_ne _ _ _ _ (hne _ _ (fun e => hp.2.2.1 e.symm)),
      alookup_aset_ne _ _ _ _ (hne _ _ (fun e => hp.2.1 e.symm)),
      alookup_aset_ne _ _ _ _ (hne _ _ (fun e => hp.1 e.symm))]
    exact alookup_aset_self _ _ _
  · rw [hfiles,
      alookup_aset_ne _ _ _ _ (hne _ _ (by decide)),
      alookup_aset_ne _ _ _ _ (hne _ _ (by decide)),
      alookup_aset_ne _ _ _ _ (hne _ _ (by decide)),
      alookup_aset_ne _ _ _ _ (hne _ _ (by decide))]
    exact alookup_aset_self _ _ _
  · rw [hfiles,
      alookup_aset_ne _ _ _ _ (hne _ _ (by decide)),
      alookup_aset_ne _ _ _ _ (hne _ _ (by decide)),
      alookup_aset_ne _ _ _ _ (hne _ _ (by decide))]
    exact alookup_aset_self _ _ _
  · rw [hfiles,
      alookup_aset_ne _ _ _ _ (hne _ _ (by decide)),
      alookup_aset_ne _ _ _ _ (hne _ _ (by decide))]
    exact alookup_aset_self _ _ _
  · rw [hfiles, alookup_aset_ne _ _ _ _ (hne _ _ (by decide))]
    exact alookup_aset_self _ _ _
  · rw [hfiles]
    exact alookup_aset_self _ _ _

/-- Witness for claim C8 exporting skill id a/b/c into a fresh library. -/
theorem claim_c8_export_layout_witness :
    ("policy.pt" ∉ ["agent.yaml", "env.yaml", "agent.pkl", "env.pkl", "metadata.json"]) ∧
      (SkillLibrary.export ⟨["root"]⟩ ⟨[], []⟩
          ⟨"a/b/c", "go2", "G", 1, 2, "", [], []⟩ ⟨some 7⟩ 3 4 "logs" "T"
          "policy.pt" []).2
        = ["root"] ++ "a/b/c".splitOn "/" ++ ["policy.pt"] :=
  ⟨by decide,
   (claim_c8_export_layout ⟨["root"]⟩ ⟨[], []⟩
      ⟨"a/b/c", "go2", "G", 1, 2, "", [], []⟩ ⟨some 7⟩ 3 4 "logs" "T"
      "policy.pt" [] _ (by decide) rfl).1⟩
